import Mathlib

/-!
Verification development for the n8n-nodes-openapi-mcp-server repository.

The repository compiles an OpenAPI 3.x JSON document into MCP tool
descriptors (src/lib/mcp_tool_convert.ts), caches the compiled tool sets
with a TTL and stale-on-error fallback, executes tool calls as outbound
HTTP requests, and dispatches JSON-RPC requests (src/nodes/OpenapiMcpServer.ts).

The JavaScript values are shallowly embedded as a JSON value type; object
field access, truthiness, template-literal stringification and the other
JS idioms the source relies on are modelled explicitly.  Functions that
recurse through a JSON tree carry an explicit fuel argument (instantiated
with a structural size bound that strictly dominates the recursion depth)
so that every definition is executable by the kernel.
-/

set_option maxHeartbeats 1600000
set_option maxRecDepth 8192

/-- JSON values, the universe of the untyped JavaScript data the source
manipulates.  Objects are insertion-ordered association lists (JS object
key order for the non-numeric keys used throughout this code base).
`jnum` carries an integer: every numeric literal relevant to the claims is
integral. -/
inductive Json where
  | jnull : Json
  | jbool : Bool → Json
  | jnum : Int → Json
  | jstr : String → Json
  | jarr : List Json → Json
  | jobj : List (String × Json) → Json

mutual

def decEqJson : (a b : Json) → Decidable (a = b)
  | Json.jnull, Json.jnull => Decidable.isTrue rfl
  | Json.jbool x, Json.jbool y =>
      if h : x = y then Decidable.isTrue (by rw [h]) else Decidable.isFalse (by simp [h])
  | Json.jnum x, Json.jnum y =>
      if h : x = y then Decidable.isTrue (by rw [h]) else Decidable.isFalse (by simp [h])
  | Json.jstr x, Json.jstr y =>
      if h : x = y then Decidable.isTrue (by rw [h]) else Decidable.isFalse (by simp [h])
  | Json.jarr xs, Json.jarr ys =>
      match decEqJsonList xs ys with
      | Decidable.isTrue h => Decidable.isTrue (by rw [h])
      | Decidable.isFalse h => Decidable.isFalse (by simp [h])
  | Json.jobj fs, Json.jobj gs =>
      match decEqJsonFields fs gs with
      | Decidable.isTrue h => Decidable.isTrue (by rw [h])
      | Decidable.isFalse h => Decidable.isFalse (by simp [h])
  | Json.jnull, Json.jbool _ => Decidable.isFalse (by simp)
  | Json.jnull, Json.jnum _ => Decidable.isFalse (by simp)
  | Json.jnull, Json.jstr _ => Decidable.isFalse (by simp)
  | Json.jnull, Json.jarr _ => Decidable.isFalse (by simp)
  | Json.jnull, Json.jobj _ => Decidable.isFalse (by simp)
  | Json.jbool _, Json.jnull => Decidable.isFalse (by simp)
  | Json.jbool _, Json.jnum _ => Decidable.isFalse (by simp)
  | Json.jbool _, Json.jstr _ => Decidable.isFalse (by simp)
  | Json.jbool _, Json.jarr _ => Decidable.isFalse (by simp)
  | Json.jbool _, Json.jobj _ => Decidable.isFalse (by simp)
  | Json.jnum _, Json.jnull => Decidable.isFalse (by simp)
  | Json.jnum _, Json.jbool _ => Decidable.isFalse (by simp)
  | Json.jnum _, Json.jstr _ => Decidable.isFalse (by simp)
  | Json.jnum _, Json.jarr _ => Decidable.isFalse (by simp)
  | Json.jnum _, Json.jobj _ => Decidable.isFalse (by simp)
  | Json.jstr _, Json.jnull => Decidable.isFalse (by simp)
  | Json.jstr _, Json.jbool _ => Decidable.isFalse (by simp)
  | Json.jstr _, Json.jnum _ => Decidable.isFalse (by simp)
  | Json.jstr _, Json.jarr _ => Decidable.isFalse (by simp)
  | Json.jstr _, Json.jobj _ => Decidable.isFalse (by simp)
  | Json.jarr _, Json.jnull => Decidable.isFalse (by simp)
  | Json.jarr _, Json.jbool _ => Decidable.isFalse (by simp)
  | Json.jarr _, Json.jnum _ => Decidable.isFalse (by simp)
  | Json.jarr _, Json.jstr _ => Decidable.isFalse (by simp)
  | Json.jarr _, Json.jobj _ => Decidable.isFalse (by simp)
  | Json.jobj _, Json.jnull => Decidable.isFalse (by simp)
  | Json.jobj _, Json.jbool _ => Decidable.isFalse (by simp)
  | Json.jobj _, Json.jnum _ => Decidable.isFalse (by simp)
  | Json.jobj _, Json.jstr _ => Decidable.isFalse (by simp)
  | Json.jobj _, Json.jarr _ => Decidable.isFalse (by simp)

def decEqJsonList : (xs ys : List Json) → Decidable (xs = ys)
  | [], [] => Decidable.isTrue rfl
  | x :: xs, y :: ys =>
      match decEqJson x y, decEqJsonList xs ys with
      | Decidable.isTrue h1, Decidable.isTrue h2 => Decidable.isTrue (by rw [h1, h2])
      | Decidable.isFalse h1, _ => Decidable.isFalse (by simp [h1])
      | _, Decidable.isFalse h2 => Decidable.isFalse (by simp [h2])
  | [], _ :: _ => Decidable.isFalse (by simp)
  | _ :: _, [] => Decidable.isFalse (by simp)

def decEqJsonFields : (xs ys : List (String × Json)) → Decidable (xs = ys)
  | [], [] => Decidable.isTrue rfl
  | (k, v) :: xs, (k2, v2) :: ys =>
      if hk : k = k2 then
        match decEqJson v v2, decEqJsonFields xs ys with
        | Decidable.isTrue h1, Decidable.isTrue h2 => Decidable.isTrue (by rw [hk, h1, h2])
        | Decidable.isFalse h1, _ => Decidable.isFalse (by simp [h1])
        | _, Decidable.isFalse h2 => Decidable.isFalse (by simp [h2])
      else Decidable.isFalse (by simp [hk])
  | [], _ :: _ => Decidable.isFalse (by simp)
  | _ :: _, [] => Decidable.isFalse (by simp)

end

instance : DecidableEq Json := decEqJson

mutual

/-- Structural size of a JSON value; used as recursion fuel (it strictly
dominates the depth of every nested value). -/
def jsize : Json → Nat
  | Json.jarr xs => jsizeList xs + 1
  | Json.jobj fs => jsizeFields fs + 1
  | _ => 1

def jsizeList : List Json → Nat
  | [] => 0
  | x :: xs => jsize x + jsizeList xs + 1

def jsizeFields : List (String × Json) → Nat
  | [] => 0
  | kv :: rest => jsize kv.2 + jsizeFields rest + 1

end

namespace Json

/-- JS truthiness of a defined value (`undefined` is modelled as `Option.none`
at use sites, never as a `Json` value). -/
def truthy : Json → Bool
  | jnull => false
  | jbool b => b
  | jnum n => n != 0
  | jstr s => s != ""
  | jarr _ => true
  | jobj _ => true

/-- `typeof v === "object"` in JS: objects, arrays and null. -/
def typeofObject : Json → Bool
  | jobj _ => true
  | jarr _ => true
  | jnull => true
  | _ => false

def isObj : Json → Bool
  | jobj _ => true
  | _ => false

def isStr : Json → Bool
  | jstr _ => true
  | _ => false

end Json

/-- Association lookup in an object field list (first binding wins; a JS
object cannot carry duplicate keys). -/
def lookupField : List (String × Json) → String → Option Json
  | [], _ => none
  | (k, v) :: rest, key => if k = key then some v else lookupField rest key

/-- `v[key]` for a non-numeric string `key`.  Returns `none` for the JS
`undefined`.  Property reads on primitives yield `undefined` in JS; numeric
index reads on arrays and strings never occur in the modelled code paths. -/
def lookupJ (j : Json) (key : String) : Option Json :=
  match j with
  | Json.jobj fields => lookupField fields key
  | _ => none

/-- JS object property assignment `o[k] = v`: an existing key keeps its
position and is overwritten, a new key is appended. -/
def setKey : List (String × Json) → String → Json → List (String × Json)
  | [], k, v => [(k, v)]
  | (k0, v0) :: rest, k, v =>
      if k0 = k then (k, v) :: rest else (k0, v0) :: setKey rest k v

/-- `delete o[k]`. -/
def removeKey : List (String × Json) → String → List (String × Json)
  | [], _ => []
  | (k0, v0) :: rest, k =>
      if k0 = k then removeKey rest k else (k0, v0) :: removeKey rest k

/-- `Object.entries(v)`.  For arrays the keys are the decimal indices.
Entries of strings (character-indexed) are elided: every caller filters
them out with a `typeof`/schema guard before they could be observed. -/
def entriesOf : Json → List (String × Json)
  | Json.jobj fields => fields
  | Json.jarr xs => (xs.enum).map (fun p => (Nat.repr p.1, p.2))
  | _ => []

/-- `a || b` where `a` is a possibly-undefined value. -/
def jsOr (a : Option Json) (b : Json) : Json :=
  match a with
  | some v => if v.truthy then v else b
  | none => b

/-- `a ?? b` (nullish coalescing) where `a` is a possibly-undefined value. -/
def jsNullish (a : Option Json) (b : Json) : Json :=
  match a with
  | some v => if v = Json.jnull then b else v
  | none => b

/-! ### ASCII string helpers (JS string methods, on the ASCII data the
claims exercise) -/

def asciiLowerStr (s : String) : String := String.mk (s.data.map Char.toLower)

def asciiUpperStr (s : String) : String := String.mk (s.data.map Char.toUpper)

/-- Character-list test: does the second list start with the first? -/
def listStartsWith : List Char → List Char → Bool
  | [], _ => true
  | _ :: _, [] => false
  | a :: as, b :: bs => a == b && listStartsWith as bs

def hasInfixL (pat : List Char) : List Char → Bool
  | [] => pat.isEmpty
  | c :: rest => listStartsWith pat (c :: rest) || hasInfixL pat rest

/-- JS `hay.includes(needle)` for strings. -/
def strContains (hay needle : String) : Bool :=
  hasInfixL needle.data hay.data

/-- `String(value)` / template-literal coercion.  Arrays stringify as the
comma-join of their elements (null elements as empty), objects as
"[object Object]". -/
def jsToStringF : Nat → Json → String
  | _, Json.jnull => "null"
  | _, Json.jbool b => if b then "true" else "false"
  | _, Json.jnum n => n.repr
  | _, Json.jstr s => s
  | Nat.succ fuel, Json.jarr xs =>
      String.intercalate ","
        (xs.map (fun x => match x with
          | Json.jnull => ""
          | y => jsToStringF fuel y))
  | _, Json.jobj _ => "[object Object]"
  | 0, Json.jarr _ => ""

def jsToString (j : Json) : String := jsToStringF (jsize j) j

/-- `${x}` for a possibly-undefined `x`: JS stringifies `undefined` as the
literal text "undefined". -/
def jsTemplate (o : Option Json) : String :=
  match o with
  | some v => jsToString v
  | none => "undefined"

/-- JSON string escaping used by `JSON.stringify` (quotes, backslash and
the common control characters). -/
def jsonEscChar (c : Char) : List Char :=
  if c = '"' then ['\\', '"']
  else if c = '\\' then ['\\', '\\']
  else if c = '\n' then ['\\', 'n']
  else if c = '\t' then ['\\', 't']
  else if c = '\r' then ['\\', 'r']
  else [c]

def jsonQuote (s : String) : String :=
  "\"" ++ String.mk ((s.data.map jsonEscChar).flatten) ++ "\""

/-- `JSON.stringify(v)` (compact form). -/
def jsonStringifyF : Nat → Json → String
  | _, Json.jnull => "null"
  | _, Json.jbool b => if b then "true" else "false"
  | _, Json.jnum n => n.repr
  | _, Json.jstr s => jsonQuote s
  | Nat.succ fuel, Json.jarr xs =>
      "[" ++ String.intercalate "," (xs.map (jsonStringifyF fuel)) ++ "]"
  | Nat.succ fuel, Json.jobj fields =>
      "\x7b" ++
        String.intercalate ","
          (fields.map (fun kv => jsonQuote kv.1 ++ ":" ++ jsonStringifyF fuel kv.2)) ++
      "\x7d"
  | 0, Json.jarr _ => ""
  | 0, Json.jobj _ => ""

def jsonStringify (j : Json) : String := jsonStringifyF (jsize j) j

/-- `JSON.stringify(v, null, 2)`: the pretty form used by the dispatcher
when normalizing non-string payloads into a text content block.  The
second argument is the current indentation depth. -/
def jsonStringify2F : Nat → Nat → Json → String
  | _, _, Json.jnull => "null"
  | _, _, Json.jbool b => if b then "true" else "false"
  | _, _, Json.jnum n => n.repr
  | _, _, Json.jstr s => jsonQuote s
  | Nat.succ fuel, ind, Json.jarr xs =>
      if xs.isEmpty then "[]"
      else
        let pad := String.mk (List.replicate (2 * (ind + 1)) ' ')
        let close := String.mk (List.replicate (2 * ind) ' ')
        "[\n" ++
          String.intercalate ",\n" (xs.map (fun x => pad ++ jsonStringify2F fuel (ind + 1) x)) ++
        "\n" ++ close ++ "]"
  | Nat.succ fuel, ind, Json.jobj fields =>
      if fields.isEmpty then "\x7b\x7d"
      else
        let pad := String.mk (List.replicate (2 * (ind + 1)) ' ')
        let close := String.mk (List.replicate (2 * ind) ' ')
        "\x7b\n" ++
          String.intercalate ",\n"
            (fields.map (fun kv => pad ++ jsonQuote kv.1 ++ ": " ++ jsonStringify2F fuel (ind + 1) kv.2)) ++
        "\n" ++ close ++ "\x7d"
  | 0, _, Json.jarr _ => ""
  | 0, _, Json.jobj _ => ""

def jsonStringifyPretty (j : Json) : String := jsonStringify2F (jsize j) 0 j

/-! ### Name cleaning (cleanToolName, src/lib/mcp_tool_convert.ts:334-353)

The source applies a fixed chain of regex replacements:
  /[{}]/g -> "", /[^a-zA-Z0-9_]/g -> "_", /_+/g -> "_", /^_|_$/g -> "",
  /^(get|post|put|delete|patch|api)_/i -> "" (once),
  /^(get_|post_|put_|delete_|patch_|api_)+/gi -> "" (repeatedly),
  /(^_|_$)/g -> "", falling back to "unnamed_tool" when empty.
Each regex is modelled as a character-list transformation. -/

/-- /[^a-zA-Z0-9_]/g -> "_" on one character. -/
def sanitizeChar (c : Char) : Char :=
  if c.isAlphanum || c = '_' then c else '_'

/-- /[{}]/g -> "". -/
def stripBraces (l : List Char) : List Char :=
  l.filter (fun c => c ≠ Char.ofNat 123 && c ≠ Char.ofNat 125)

/-- /_+/g -> "_": collapse each run of underscores to a single one. -/
def collapseU : List Char → List Char
  | [] => []
  | [c] => [c]
  | c1 :: c2 :: rest =>
      if c1 = '_' && c2 = '_' then collapseU (c2 :: rest)
      else c1 :: collapseU (c2 :: rest)

/-- The "^_" alternate of /^_|_$/g: at most one leading underscore is
removed (runs were already collapsed before this step runs). -/
def dropOneLead : List Char → List Char
  | [] => []
  | a :: rest => if a = '_' then rest else a :: rest

/-- The "_$" alternate of /^_|_$/g. -/
def dropOneTrail (l : List Char) : List Char :=
  (dropOneLead l.reverse).reverse

/-- If the list case-insensitively starts with one of the verb/api
prefixes (the regex alternation get|post|put|delete|patch|api followed by
an underscore), return the remainder after it. -/
def restAfterVerb (l : List Char) : Option (List Char) :=
  if (l.take 4).map Char.toLower = "get_".data then some (l.drop 4)
  else if (l.take 5).map Char.toLower = "post_".data then some (l.drop 5)
  else if (l.take 4).map Char.toLower = "put_".data then some (l.drop 4)
  else if (l.take 7).map Char.toLower = "delete_".data then some (l.drop 7)
  else if (l.take 6).map Char.toLower = "patch_".data then some (l.drop 6)
  else if (l.take 4).map Char.toLower = "api_".data then some (l.drop 4)
  else none

/-- /^(get|post|put|delete|patch|api)_/i -> "" (non-global: one removal). -/
def dropVerbOnce (l : List Char) : List Char :=
  match restAfterVerb l with
  | some r => r
  | none => l

/-- /^(get_|...|api_)+/gi -> "": repeated removal from the start.  The
fuel (instantiated with the list length) dominates the number of rounds,
each of which removes at least four characters. -/
def dropVerbsF : Nat → List Char → List Char
  | 0, l => l
  | Nat.succ fuel, l =>
      match restAfterVerb l with
      | some r => dropVerbsF fuel r
      | none => l

/-- The regex chain of cleanToolName on the character list. -/
def cleanPipe (l : List Char) : List Char :=
  let l3 := collapseU ((stripBraces l).map sanitizeChar)
  let l4 := dropOneTrail (dropOneLead l3)
  let l5 := dropVerbOnce l4
  dropOneTrail (dropOneLead (dropVerbsF l5.length l5))

/-- cleanToolName (src/lib/mcp_tool_convert.ts:334-353).  The `!name`
guard and the try/catch of the source are dead for string input (the
guard returns the same "unnamed_tool" the empty pipeline produces); the
final `|| "unnamed_tool"` is the fallback below. -/
def cleanToolName (name : String) : String :=
  if (cleanPipe name.data).isEmpty then "unnamed_tool"
  else String.mk (cleanPipe name.data)

/-! ### lodash snakeCase (ASCII model)

`_.snakeCase(s)` splits `s` into words and joins their lowercasings with
underscores.  For the ASCII identifier-like strings this code base feeds
it, words are the maximal alphanumeric runs, further split at
lower-to-upper, letter-to-digit, digit-to-letter, and
acronym-before-word (upper, upper, lower) boundaries. -/

def camelBoundary (p c : Char) (rest : List Char) : Bool :=
  (p.isLower && c.isUpper) ||
  (p.isAlpha && c.isDigit) ||
  (p.isDigit && c.isAlpha) ||
  (p.isUpper && c.isUpper &&
    (match rest with
     | r :: _ => r.isLower
     | [] => false))

def splitCamelAux : List Char → List Char → List (List Char)
  | acc, [] => if acc.isEmpty then [] else [acc.reverse]
  | [], c :: rest => splitCamelAux [c] rest
  | p :: acc, c :: rest =>
      if camelBoundary p c rest then (p :: acc).reverse :: splitCamelAux [c] rest
      else splitCamelAux (c :: p :: acc) rest

def splitRunsAux : List Char → List Char → List (List Char)
  | acc, [] => if acc.isEmpty then [] else [acc.reverse]
  | acc, c :: rest =>
      if c.isAlphanum then splitRunsAux (c :: acc) rest
      else if acc.isEmpty then splitRunsAux [] rest
      else acc.reverse :: splitRunsAux [] rest

def snakeCase (s : String) : String :=
  String.intercalate "_"
    ((((splitRunsAux [] s.data).map (splitCamelAux [])).flatten).map
      (fun w => String.mk (w.map Char.toLower)))

/-! ### encodeURIComponent and form encoding -/

def hexDigitU (n : Nat) : Char :=
  if n < 10 then Char.ofNat (48 + n) else Char.ofNat (55 + n)

def pctByte (b : Nat) : List Char :=
  ['%', hexDigitU (b / 16), hexDigitU (b % 16)]

/-- UTF-8 bytes of one code point. -/
def utf8Bytes (c : Char) : List Nat :=
  let n := c.toNat
  if n < 128 then [n]
  else if n < 2048 then [192 + n / 64, 128 + n % 64]
  else if n < 65536 then [224 + n / 4096, 128 + (n / 64) % 64, 128 + n % 64]
  else [240 + n / 262144, 128 + (n / 4096) % 64, 128 + (n / 64) % 64, 128 + n % 64]

/-- Characters `encodeURIComponent` leaves unescaped. -/
def encSafeChar (c : Char) : Bool :=
  c.isAlphanum || c ∈ ['-', '_', '.', '!', '~', '*', Char.ofNat 39, '(', ')']

def encodeURIComponent (s : String) : String :=
  String.mk ((s.data.map (fun c =>
    if encSafeChar c then [c] else (utf8Bytes c).flatMap pctByte)).flatten)

/-- Characters `URLSearchParams` serialization leaves unescaped
(application/x-www-form-urlencoded; space becomes "+"). -/
def formSafeChar (c : Char) : Bool :=
  c.isAlphanum || c ∈ ['*', '-', '.', '_']

def formEncodeStr (s : String) : String :=
  String.mk ((s.data.map (fun c =>
    if c = ' ' then ['+']
    else if formSafeChar c then [c]
    else (utf8Bytes c).flatMap pctByte)).flatten)

/-- `new URLSearchParams(payload).toString()`.  Modelled for object
payloads (the only shape the executor can feed it from JSON data);
other payload shapes are not exercised by any modelled code path. -/
def urlSearchParamsStr (j : Json) : String :=
  match j with
  | Json.jobj fields =>
      String.intercalate "&"
        (fields.map (fun kv => formEncodeStr kv.1 ++ "=" ++ formEncodeStr (jsToString kv.2)))
  | _ => ""

/-- `s.replace(new RegExp(lit, "g"), repl)` for a literal pattern `lit`
with no regex metacharacters (the executor builds it from a parameter
name): non-overlapping left-to-right replacement.  Fuel dominates the
number of examined positions. -/
def replaceAllF (pat repl : List Char) : Nat → List Char → List Char
  | _, [] => []
  | 0, l => l
  | Nat.succ fuel, c :: rest =>
      if pat ≠ [] && listStartsWith pat (c :: rest) then
        repl ++ replaceAllF pat repl fuel ((c :: rest).drop pat.length)
      else c :: replaceAllF pat repl fuel rest

def replaceAllStr (s pat repl : String) : String :=
  String.mk (replaceAllF pat.data repl.data s.data.length s.data)

/-! ### Schema sanitizer (cleanProperty, src/lib/mcp_tool_convert.ts:263-329)

`cleanPropertyFuel` is the fueled embedding; `cleanProperty` instantiates
the fuel with `jsize`, which strictly dominates the recursion depth, so
the fuel-exhaustion arm is unreachable.  The JS try/catch never fires on
pure JSON data, so the `null` result is unreachable too: the
`.filter(Boolean)` steps of the source are kept as truthiness filters. -/

def allowedCleanFields : List String :=
  ["description", "examples", "example", "default", "enum", "pattern",
   "minLength", "maxLength", "minimum", "maximum", "format", "multipleOf",
   "exclusiveMinimum", "exclusiveMaximum"]

/-- The field-building part of cleanProperty, abstracted over the
recursive call so the fueled recursion below stays structural. -/
def cleanedFieldsWith (recur : Json → Json) (prop : Json) : List (String × Json) :=
  let c0 := [("type", jsOr (lookupJ prop "type") (Json.jstr "string"))]
  -- copy the allow-listed descriptive fields when defined and non-null
  let c1 := allowedCleanFields.foldl (fun acc f =>
      match lookupJ prop f with
      | some v => if v = Json.jnull then acc else setKey acc f v
      | none => acc) c0
  -- nested properties (and the nested required filter)
  let c2 :=
    match lookupJ prop "properties" with
    | some pv =>
        if pv.truthy && pv.typeofObject then
          let nested := ((entriesOf pv).map
              (fun kv => (kv.1, recur kv.2))).filter
            (fun kv => kv.2.truthy)
          let ca := setKey c1 "properties" (Json.jobj nested)
          match lookupJ prop "required" with
          | some (Json.jarr rs) => setKey ca "required" (Json.jarr (rs.filter Json.isStr))
          | _ => ca
        else c1
    | none => c1
  -- items
  let c3 :=
    match lookupJ prop "items" with
    | some iv => if iv.truthy then setKey c2 "items" (recur iv) else c2
    | none => c2
  -- oneOf / anyOf / allOf
  let c4 :=
    match lookupJ prop "oneOf" with
    | some (Json.jarr xs) =>
        setKey c3 "oneOf" (Json.jarr ((xs.map recur).filter Json.truthy))
    | _ => c3
  let c5 :=
    match lookupJ prop "anyOf" with
    | some (Json.jarr xs) =>
        setKey c4 "anyOf" (Json.jarr ((xs.map recur).filter Json.truthy))
    | _ => c4
  match lookupJ prop "allOf" with
  | some (Json.jarr xs) =>
      setKey c5 "allOf" (Json.jarr ((xs.map recur).filter Json.truthy))
  | _ => c5

def cleanPropertyFuel : Nat → Json → Json
  | 0, _ => Json.jobj [("type", Json.jstr "string")]
  | Nat.succ fuel, prop =>
      if !prop.truthy || !prop.typeofObject then Json.jobj [("type", Json.jstr "string")]
      else Json.jobj (cleanedFieldsWith (cleanPropertyFuel fuel) prop)

def cleanProperty (prop : Json) : Json := cleanPropertyFuel (jsize prop) prop

/-- The `prop?.optional === true || prop?.optional === "true"` override
check of createInputSchema. -/
def optFlag (prop : Json) : Bool :=
  lookupJ prop "optional" = some (Json.jbool true) ||
  lookupJ prop "optional" = some (Json.jstr "true")

/-- One step of the createInputSchema property loop: the accumulator is
the (properties, required) pair under construction. -/
def ciStep (originalRequired : List Json)
    (acc : List (String × Json) × List Json) (kv : String × Json) :
    List (String × Json) × List Json :=
  if kv.1 = "" then acc
  else
    let cleanProp := cleanProperty kv.2
    if cleanProp.truthy then
      let isOptional := optFlag kv.2
      let isInRequired := Json.jstr kv.1 ∈ originalRequired
      (setKey acc.1 kv.1 cleanProp,
       if isInRequired && !isOptional then acc.2 ++ [Json.jstr kv.1] else acc.2)
    else acc

/-- createInputSchema (src/lib/mcp_tool_convert.ts:207-258).  The input is
`Option Json`: `none` is the `null` the extractors return when nothing is
available.  The catch arm of the source is unreachable on pure JSON data. -/
def createInputSchema (schemaOpt : Option Json) : Json :=
  let defaultSchema := Json.jobj
    [("type", Json.jstr "object"),
     ("properties", Json.jobj []),
     ("additionalProperties", Json.jbool false)]
  match schemaOpt with
  | none => defaultSchema
  | some schema =>
      if !schema.truthy || !schema.typeofObject then defaultSchema
      else
        let originalRequired :=
          match lookupJ schema "required" with
          | some (Json.jarr xs) => xs
          | _ => []
        let entries :=
          match lookupJ schema "properties" with
          | some pv => if pv.truthy && pv.typeofObject then entriesOf pv else []
          | none => []
        let pr := entries.foldl (ciStep originalRequired) ([], [])
        Json.jobj
          [("type", Json.jstr "object"),
           ("properties", Json.jobj pr.1),
           ("required", Json.jarr pr.2),
           ("additionalProperties", Json.jbool false)]

/-! ### Parameter / request-body schema extraction
(src/lib/mcp_tool_convert.ts:124-202) -/

def allowedParamFields : List String :=
  ["examples", "example", "default", "enum", "pattern", "minLength",
   "maxLength", "minimum", "maximum", "format"]

/-- One step of the extractParametersSchema loop. -/
def epStep (acc : List (String × Json) × List Json) (param : Json) :
    List (String × Json) × List Json :=
  if !param.truthy || !param.typeofObject then acc
  else
    let inV := lookupJ param "in"
    if inV = some (Json.jstr "path") || inV = some (Json.jstr "query") ||
       inV = some (Json.jstr "header") then
      match lookupJ param "name" with
      | some (Json.jstr pn) =>
          if pn = "" then acc
          else
            let locStr := jsTemplate inV
            let base :=
              [("type", jsOr ((lookupJ param "schema").bind (fun s => lookupJ s "type"))
                  (Json.jstr "string")),
               ("description", jsOr (lookupJ param "description")
                  (Json.jstr (locStr ++ " parameter: " ++ pn)))]
            -- extra allow-listed fields: copied whenever defined (null included)
            let prop :=
              match lookupJ param "schema" with
              | some sv =>
                  if sv.truthy then
                    allowedParamFields.foldl (fun a f =>
                      match lookupJ sv f with
                      | some v => setKey a f v
                      | none => a) base
                  else base
              | none => base
            (setKey acc.1 pn (Json.jobj prop),
             if lookupJ param "required" = some (Json.jbool true)
             then acc.2 ++ [Json.jstr pn] else acc.2)
      | _ => acc
    else acc

/-- extractParametersSchema (src/lib/mcp_tool_convert.ts:124-170), applied
to the value of `operation.parameters || []`. -/
def extractParametersSchema (paramsJ : Json) : Option Json :=
  match paramsJ with
  | Json.jarr params =>
      if params.isEmpty then none
      else
        let pr := params.foldl epStep ([], [])
        if pr.1.isEmpty then none
        else some (Json.jobj
          [("type", Json.jstr "object"),
           ("properties", Json.jobj pr.1),
           ("required", Json.jarr pr.2)])
  | _ => none

def preferredContentTypes : List String :=
  ["application/json", "multipart/form-data",
   "application/x-www-form-urlencoded", "text/plain"]

/-- extractRequestBodySchema (src/lib/mcp_tool_convert.ts:175-202). -/
def extractRequestBodySchema (operation : Json) : Option Json :=
  let content? := (lookupJ operation "requestBody").bind (fun rb => lookupJ rb "content")
  match content? with
  | none => none
  | some content =>
      if !content.truthy then none
      else
        match preferredContentTypes.findSome? (fun ct =>
          match (lookupJ content ct).bind (fun v => lookupJ v "schema") with
          | some s => if s.truthy then some s else none
          | none => none) with
        | some s => some s
        | none =>
            (entriesOf content).findSome? (fun kv =>
              match lookupJ kv.2 "schema" with
              | some s => if s.truthy then some s else none
              | none => none)

/-! ### Tool compiler (src/lib/mcp_tool_convert.ts:20-119) -/

/-- The compiled MCP tool (interface McpTool).  `description`,
`operationId`, `tag`, `deprecated` and `summary` carry whatever JSON the
untyped source put there; absent optional fields are `none`. -/
structure McpTool where
  name : String
  description : Json
  method : String
  path : String
  operationId : Option Json
  tag : Option Json
  deprecated : Json
  summary : Option Json
  inputSchema : Json
deriving DecidableEq

/-- The JS object literal returned by createToolFromOperation, as consumed
by the executor and the dispatcher.  Keys follow the source literal;
fields whose values are the JS `undefined` are omitted (property reads
cannot distinguish the two). -/
def McpTool.toJson (t : McpTool) : Json :=
  Json.jobj
    [("name", Json.jstr t.name),
     ("description", t.description),
     ("x-props", Json.jobj
        ([("method", Json.jstr t.method), ("path", Json.jstr t.path)] ++
         (match t.operationId with | some v => [("operationId", v)] | none => []) ++
         (match t.tag with | some v => [("tag", v)] | none => []) ++
         [("deprecated", t.deprecated)] ++
         (match t.summary with | some v => [("summary", v)] | none => []))),
     ("inputSchema", t.inputSchema)]

/-- The name computation of createToolFromOperation
(src/lib/mcp_tool_convert.ts:77-78):

  _.snakeCase(`${method}_${operation.operationId}` || `${method}_${path}`)

The first template literal always contains `method` and an underscore, so
it is never the empty string and the `||` fallback to method+path is dead
code; a missing operationId is interpolated as the text "undefined".  The
model keeps the dead branch to mirror the source.  The trailing
`|| "unnamed_tool"` of the source line is the rawName fallback. -/
def toolNameOf (method : String) (operation : Json) (path : String) : String :=
  let tmpl := method ++ "_" ++ jsTemplate (lookupJ operation "operationId")
  let pre := if tmpl = "" then method ++ "_" ++ path else tmpl
  let snk := snakeCase pre
  cleanToolName (if snk = "" then "unnamed_tool" else snk)

/-- The schema-source selection of createToolFromOperation
(src/lib/mcp_tool_convert.ts:91-98): only the method `get` (case folded)
reads `parameters`; every other method reads the request body, with no
fallback to the parameters. -/
def selectSchema (method : String) (operation : Json) : Option Json :=
  if asciiLowerStr method = "get" then
    extractParametersSchema (jsOr (lookupJ operation "parameters") (Json.jarr []))
  else
    extractRequestBodySchema operation

/-- createToolFromOperation (src/lib/mcp_tool_convert.ts:70-119). -/
def createToolFromOperation (path method : String) (operation : Json)
    (tags : List Json) : Option McpTool :=
  if toolNameOf method operation path = "" ||
     toolNameOf method operation path = "unnamed_tool" then none
  else
    some
      { name := toolNameOf method operation path,
        description :=
          jsOr (lookupJ operation "description")
            (jsOr (lookupJ operation "summary")
              (Json.jstr ("Execute " ++ asciiUpperStr method ++ " " ++ path))),
        method := asciiUpperStr method,
        path := path,
        operationId := lookupJ operation "operationId",
        tag := tags.head?,
        deprecated := jsOr (lookupJ operation "deprecated") (Json.jbool false),
        summary := lookupJ operation "summary",
        inputSchema := createInputSchema (selectSchema method operation) }

def validMethods : List String :=
  ["get", "post", "put", "delete", "patch", "head", "options"]

/-- The tag filter predicate of the converter
(src/lib/mcp_tool_convert.ts:48-50):
`typeof t === "string" && t.toLowerCase().includes(filterTag)` — the tag
is lowercased, the filter string is matched verbatim. -/
def tagMatches (filterTag : String) (t : Json) : Bool :=
  match t with
  | Json.jstr s => strContains (asciiLowerStr s) filterTag
  | _ => false

/-- The try/catch push of one compiled tool
(src/lib/mcp_tool_convert.ts:52-60): a `null` result is not pushed.  (The
catch arm cannot fire on pure JSON data.) -/
def toolListOf : Option McpTool → List McpTool
  | some tool => [tool]
  | none => []

/-- convertOpenApiToMcpTools (src/lib/mcp_tool_convert.ts:20-65).
`filterTag` is the string the JS `String.prototype.includes` coerces its
argument to (callers may pass an array; see `effectiveFilter`). -/
def convertOpenApiToMcpTools (openApiJson : Json) (filterTag : String) : List McpTool :=
  if !openApiJson.truthy || !openApiJson.typeofObject then []
  else
    let paths := jsOr (lookupJ openApiJson "paths") (Json.jobj [])
    if (entriesOf paths).isEmpty then []
    else
      (entriesOf paths).flatMap (fun pe =>
        if pe.1 = "" then []
        else if !pe.2.truthy || !pe.2.typeofObject then []
        else
          (entriesOf pe.2).flatMap (fun me =>
            if !(validMethods.contains (asciiLowerStr me.1)) then []
            else if !me.2.truthy || !me.2.typeofObject then []
            else
              let tags :=
                match lookupJ me.2 "tags" with
                | some (Json.jarr ts) => ts
                | _ => []
              if tags.isEmpty || !(tags.any (tagMatches filterTag)) then []
              else toolListOf (createToolFromOperation pe.1 me.1 me.2 tags)))

/-! ### Tool cache (loadTools, src/nodes/OpenapiMcpServer.ts:25-60)

The cache policy is modelled per key: `cached` is the entry
`toolsCache.get(cacheKey)`, `refresh` is the (already awaited) outcome of
`getMcpTools`, `nowCheck`/`nowStore` are the two `Date.now()` calls. -/

def TOOLS_CACHE_TTL_MS : Nat := 5 * 60000

instance {ε α : Type} [DecidableEq ε] [DecidableEq α] : DecidableEq (Except ε α) :=
  fun a b =>
    match a, b with
    | Except.ok x, Except.ok y =>
        if h : x = y then Decidable.isTrue (by rw [h]) else Decidable.isFalse (by simp [h])
    | Except.error x, Except.error y =>
        if h : x = y then Decidable.isTrue (by rw [h]) else Decidable.isFalse (by simp [h])
    | Except.ok _, Except.error _ => Decidable.isFalse (by simp)
    | Except.error _, Except.ok _ => Decidable.isFalse (by simp)

structure CacheEntry (α : Type) where
  timestamp : Nat
  tools : List α
deriving DecidableEq

structure LoadOutcome (ε α : Type) where
  result : Except ε (List α)
  cache : Option (CacheEntry α)
  refreshInvoked : Bool
deriving DecidableEq

def loadToolsStep {ε α : Type} (cached : Option (CacheEntry α))
    (nowCheck nowStore ttl : Nat) (forceRefresh : Bool)
    (refresh : Except ε (List α)) : LoadOutcome ε α :=
  let runRefresh : LoadOutcome ε α :=
    match refresh with
    | Except.ok ts => ⟨Except.ok ts, some ⟨nowStore, ts⟩, true⟩
    | Except.error err =>
        match cached with
        | some e => ⟨Except.ok e.tools, some e, true⟩
        | none => ⟨Except.error err, none, true⟩
  match cached with
  | some e =>
      if !forceRefresh && (nowCheck : Int) - (e.timestamp : Int) < (ttl : Int)
      then ⟨Except.ok e.tools, some e, false⟩
      else runRefresh
  | none => runRefresh

/-- The filter argument reaching loadTools: a single tag string or a
multi-select array of tag strings. -/
inductive FilterVal where
  | fstr : String → FilterVal
  | farr : List String → FilterVal
deriving DecidableEq

/-- The filter part of the cache key
(src/nodes/OpenapiMcpServer.ts:27): arrays are sorted and joined with
":", a falsy string becomes "all". -/
def filterKeyOf : FilterVal → String
  | FilterVal.fstr s => if s = "" then "all" else s
  | FilterVal.farr ts => String.intercalate ":" (ts.mergeSort (fun a b => decide (a ≤ b)))

/-- src/nodes/OpenapiMcpServer.ts:39: the "all"/empty sentinel is replaced
by the empty array before the converter runs. -/
def tagsToFilterOf (fv : FilterVal) : FilterVal :=
  if filterKeyOf fv = "all" || filterKeyOf fv = "" then FilterVal.farr [] else fv

/-- The string `String.prototype.includes` coerces the filter argument to
inside convertOpenApiToMcpTools (String([]) is "", String(["a","b"]) is
"a,b"). -/
def coerceFilterString : FilterVal → String
  | FilterVal.fstr s => s
  | FilterVal.farr ts => String.intercalate "," ts

/-- The filter string the converter effectively matches tags against for
a given configured filter value. -/
def effectiveFilter (fv : FilterVal) : String :=
  coerceFilterString (tagsToFilterOf fv)

/-! ### Request executor (executeTool, src/nodes/OpenapiMcpServer.ts:86-243)

`executeToolRequest` models everything executeTool does before the
`fetch` call: the bound parameter locations, final URL and encoded body.
Response decoding happens after the network round trip and is abstracted
by the dispatcher's executor oracle. -/

inductive BodyEnc where
  | formdata : List Json → BodyEnc
  | urlencoded : String → BodyEnc
  | jsonBody : String → BodyEnc
deriving DecidableEq

structure ExecRequest where
  method : String
  url : String
  path : String
  headers : List (String × Json)
  body : Option BodyEnc
deriving DecidableEq

structure BindState where
  path : String
  query : List (String × Json)
  headers : List (String × Json)
  cookies : List String
  body : Option Json

/-- One iteration of the parameter-binding loop
(src/nodes/OpenapiMcpServer.ts:115-164).  `args?.[name]` reads the
property named `String(name)`; an undefined value skips the parameter. -/
def bindParam (args : Json) (st : BindState) (p : Json) : BindState :=
  let key := jsTemplate (lookupJ p "name")
  match lookupJ args key with
  | none => st
  | some value =>
      match lookupJ p "in" with
      | some (Json.jstr "path") =>
          if strContains st.path ("\x7b" ++ key ++ "\x7d") then
            let newPath := replaceAllStr st.path ("\x7b" ++ key ++ "\x7d")
                (encodeURIComponent (jsToString value))
            { st with path := newPath }
          else
            { st with query := setKey st.query key value }
      | some (Json.jstr "query") => { st with query := setKey st.query key value }
      | some (Json.jstr "header") => { st with headers := setKey st.headers key value }
      | some (Json.jstr "cookie") =>
          { st with cookies := st.cookies ++ [key ++ "=" ++ jsToString value] }
      | some (Json.jstr "body") => { st with body := some value }
      | some (Json.jstr "requestBody") => { st with body := some value }
      | _ =>
          -- unknown location: merged into the body object
          match st.body with
          | none => { st with body := some (Json.jobj [(key, value)]) }
          | some (Json.jobj fs) => { st with body := some (Json.jobj (setKey fs key value)) }
          | some other => { st with body := some other }

def lastCharIs (s : String) (c : Char) : Bool :=
  match s.data.getLast? with
  | some d => d == c
  | none => false

def headCharIs (s : String) (c : Char) : Bool :=
  match s.data.head? with
  | some d => d == c
  | none => false

/-- The query-string construction (src/nodes/OpenapiMcpServer.ts:183-197):
repeated keys for arrays, JSON-encoded objects, stringified scalars,
null-valued entries omitted (undefined values are never stored). -/
def qsPartsOf (query : List (String × Json)) : List String :=
  query.foldl (fun acc kv =>
    match kv.2 with
    | Json.jnull => acc
    | Json.jarr items =>
        acc ++ items.map (fun it =>
          encodeURIComponent kv.1 ++ "=" ++ encodeURIComponent (jsToString it))
    | Json.jobj fs =>
        acc ++ [encodeURIComponent kv.1 ++ "=" ++
          encodeURIComponent (jsonStringify (Json.jobj fs))]
    | v => acc ++ [encodeURIComponent kv.1 ++ "=" ++ encodeURIComponent (jsToString v)]) []

/-- executeTool up to (and excluding) the fetch call
(src/nodes/OpenapiMcpServer.ts:86-226). -/
def executeToolRequest (tool : Json) (args : Json) (baseUrl : String)
    (token : Option String) : Except String ExecRequest :=
  let x := jsOr (lookupJ tool "x-props") (Json.jobj [])
  let method := asciiUpperStr (jsToString (jsOr (lookupJ x "method") (Json.jstr "GET")))
  let path0 := jsToString (jsOr (lookupJ x "path")
      (Json.jstr ("/" ++ jsTemplate (lookupJ tool "name"))))
  if baseUrl = "" then Except.error "Missing baseUrl in credentials"
  else
    let headers0 : List (String × Json) :=
      [("Content-Type", Json.jstr "application/json")] ++
      (match token with
       | some t => if t = "" then [] else [("Authorization", Json.jstr ("Bearer " ++ t))]
       | none => [])
    let st0 : BindState := ⟨path0, [], headers0, [], none⟩
    let st :=
      match lookupJ x "parameters" with
      | some (Json.jarr ps) => ps.foldl (bindParam args) st0
      | _ => { st0 with body := some args }   -- fallback: all args become the body
    let headers1 :=
      if st.cookies.isEmpty then st.headers
      else setKey st.headers "Cookie" (Json.jstr (String.intercalate "; " st.cookies))
    let normalizedBase := if lastCharIs baseUrl '/' then String.mk baseUrl.data.dropLast else baseUrl
    let normalizedPath := if headCharIs st.path '/' then st.path else "/" ++ st.path
    let url0 := normalizedBase ++ normalizedPath
    let qsParts := qsPartsOf st.query
    let url := if qsParts.isEmpty then url0 else url0 ++ "?" ++ String.intercalate "&" qsParts
    let contentType :=
      match lookupField headers1 "Content-Type" with
      | some (Json.jstr s) => asciiLowerStr s
      | some v => asciiLowerStr (jsToString v)
      | none => ""
    let hb : List (String × Json) × Option BodyEnc :=
      match st.body with
      | some bp =>
          if method = "POST" || method = "PUT" || method = "PATCH" || method = "DELETE" then
            if bp.truthy && lookupJ bp "__formdata" = some (Json.jbool true) &&
               (match lookupJ bp "entries" with
                | some (Json.jarr _) => true
                | _ => false) then
              (removeKey headers1 "Content-Type",
               some (BodyEnc.formdata
                 (match lookupJ bp "entries" with
                  | some (Json.jarr es) => es
                  | _ => [])))
            else if strContains contentType "application/x-www-form-urlencoded" then
              (headers1, some (BodyEnc.urlencoded (urlSearchParamsStr bp)))
            else
              (headers1, some (BodyEnc.jsonBody (jsonStringify bp)))
          else (headers1, none)
      | none => (headers1, none)
    Except.ok ⟨method, url, st.path, hb.1, hb.2⟩

/-! ### JSON-RPC dispatcher (handleMCPRequest, src/nodes/OpenapiMcpServer.ts:250-384)
and batch webhook handling (src/nodes/OpenapiMcpServer.ts:576-611)

`RpcRequest` models the destructured request; any field may be undefined
(`none`) since the inbound body is untyped.  The awaited `executeTool`
call is abstracted by an executor oracle returning either its resolved
result data or the thrown error. -/

structure RpcRequest where
  id : Option Json
  method : Option Json
  params : Option Json
deriving DecidableEq

structure RpcError where
  code : Int
  message : String
  data : Option Json
deriving DecidableEq

structure RpcResponse where
  id : Option Json
  result : Option Json
  error : Option RpcError
deriving DecidableEq

/-- What a thrown executeTool error exposes to the catch handler
(`err?.message`, `err?.stack`). -/
structure ExecErrInfo where
  message : Option String
  stack : Option String
deriving DecidableEq

inductive ExecOutcome where
  | resolved : Json → ExecOutcome     -- the `data` field of the executeTool result
  | threw : ExecErrInfo → ExecOutcome
deriving DecidableEq

def errResp (id : Option Json) (code : Int) (message : String)
    (data : Option Json) : RpcResponse :=
  ⟨id, none, some ⟨code, message, data⟩⟩

def initResultJson : Json :=
  Json.jobj
    [("protocolVersion", Json.jstr "2024-11-05"),
     ("capabilities", Json.jobj [("tools", Json.jobj [])]),
     ("serverInfo", Json.jobj
       [("name", Json.jstr "n8n-mcp-server"), ("version", Json.jstr "1.0.0")])]

/-- The tools/list per-tool reshaping
(src/nodes/OpenapiMcpServer.ts:280-296). -/
def shapeTool (t : Json) : Json :=
  let inputSchema :=
    match lookupJ t "inputSchema" with
    | some v =>
        if v.typeofObject && lookupJ v "type" = some (Json.jstr "object") then v
        else Json.jobj
          [("type", Json.jstr "object"),
           ("properties", Json.jobj []),
           ("required", Json.jarr [])]
    | none => Json.jobj
        [("type", Json.jstr "object"),
         ("properties", Json.jobj []),
         ("required", Json.jarr [])]
  Json.jobj
    ((match lookupJ t "name" with | some v => [("name", v)] | none => []) ++
     [("description", jsOr (lookupJ t "description") (Json.jstr "No description provided")),
      ("inputSchema", inputSchema)] ++
     (match lookupJ t "x-props" with | some v => [("x-props", v)] | none => []))

/-- convertToMcpContent (src/nodes/OpenapiMcpServer.ts:309-347).  The
JSON.stringify try/catch cannot fire on pure JSON data, so the
`String(data)` fallback is unreachable. -/
def convertToMcpContent (data : Json) : Json :=
  match data with
  | Json.jstr s => Json.jobj [("type", Json.jstr "text"), ("text", Json.jstr s)]
  | d =>
      if lookupJ d "__mcp_type" = some (Json.jstr "image") &&
         (match lookupJ d "base64" with | some b => b.truthy | none => false) then
        Json.jobj
          [("type", Json.jstr "image"),
           ("data", jsTemplate (lookupJ d "base64")
             |> Json.jstr)
           , ("mimeType", jsOr (lookupJ d "mimeType") (Json.jstr "image/png"))]
      else if lookupJ d "__mcp_type" = some (Json.jstr "audio") &&
         (match lookupJ d "base64" with | some b => b.truthy | none => false) then
        Json.jobj
          [("type", Json.jstr "audio"),
           ("data", jsTemplate (lookupJ d "base64") |> Json.jstr),
           ("mimeType", jsOr (lookupJ d "mimeType") (Json.jstr "audio/mpeg"))]
      else
        Json.jobj [("type", Json.jstr "text"), ("text", Json.jstr (jsonStringifyPretty d))]

/-- The tools/call lookup (src/nodes/OpenapiMcpServer.ts:302):
`tools.find((t) => t.name === toolName)` — a linear scan returning the
FIRST tool whose name strictly equals the requested name. -/
def findTool (tools : List Json) (toolName : Option Json) : Option Json :=
  tools.find? (fun t => lookupJ t "name" == toolName)

/-- handleMCPRequest (src/nodes/OpenapiMcpServer.ts:250-384).  `exec` is
the awaited executeTool call on the found tool and defaulted arguments;
its thrown errors are the values the catch arm observes. -/
def handleMCPRequest (req : RpcRequest) (tools : List Json)
    (exec : Json → Json → ExecOutcome) : RpcResponse :=
  match req.method with
  | some (Json.jstr "initialize") => ⟨req.id, some initResultJson, none⟩
  | some (Json.jstr "tools/list") =>
      ⟨req.id, some (Json.jobj [("tools", Json.jarr (tools.map shapeTool))]), none⟩
  | some (Json.jstr "tools/call") =>
      -- toolName := params?.name
      match findTool tools (req.params.bind (fun p => lookupJ p "name")) with
      | none =>
          errResp req.id (-32601)
            ("Tool \x27" ++ jsTemplate (req.params.bind (fun p => lookupJ p "name")) ++
             "\x27 not found") none
      | some tool =>
          let args := jsOr (req.params.bind (fun p => lookupJ p "arguments")) (Json.jobj [])
          match exec tool args with
          | ExecOutcome.resolved data =>
              let raw := jsNullish (lookupJ data "data") data
              ⟨req.id, some (Json.jobj [("content", Json.jarr [convertToMcpContent raw])]), none⟩
          | ExecOutcome.threw e =>
              let msg := match e.message with
                | some m => if m = "" then "Internal error" else m
                | none => "Internal error"
              let debug := Json.jobj
                ((match e.message with
                  | some m => [("message", Json.jstr m)]
                  | none => []) ++
                 (match e.stack with
                  | some s => [("stack", Json.jarr (((s.splitOn "\n").take 5).map Json.jstr))]
                  | none => []))
              errResp req.id (-32603) msg (some debug)
  | some (Json.jstr "ping") => ⟨req.id, some (Json.jobj []), none⟩
  | m => errResp req.id (-32601) ("Method \x27" ++ jsTemplate m ++ "\x27 not found") none

/-- Normalization of one settled batch item
(src/nodes/OpenapiMcpServer.ts:585-595): a fulfilled dispatch is returned
verbatim, a rejected one becomes the synthetic -32000 response whose id
is the constant string "error". -/
def settleOne (s : Except String RpcResponse) : RpcResponse :=
  match s with
  | Except.ok v => v
  | Except.error reason =>
      ⟨some (Json.jstr "error"), none,
       some ⟨-32000, "Unhandled handler error", some (Json.jstr reason)⟩⟩

/-- The batch arm of the webhook handler
(src/nodes/OpenapiMcpServer.ts:578-600): each settled dispatch outcome is
normalized positionally. -/
def webhookBatchRespond (outcomes : List (Except String RpcResponse)) : List RpcResponse :=
  outcomes.map settleOne

/-! ### Concrete inputs for the claims -/

/-- The pets document of spec section 8. -/
def petsDoc : Json :=
  Json.jobj [("paths", Json.jobj
    [("/pets/{id}", Json.jobj
      [("get", Json.jobj
        [("operationId", Json.jstr "getPetById"),
         ("tags", Json.jarr [Json.jstr "pets"]),
         ("parameters", Json.jarr
           [Json.jobj
             [("name", Json.jstr "id"),
              ("in", Json.jstr "path"),
              ("required", Json.jbool true),
              ("schema", Json.jobj [("type", Json.jstr "integer")])]])])])])]

/-- A document whose single operation has no operationId. -/
def noOperationIdDoc : Json :=
  Json.jobj [("paths", Json.jobj
    [("/pets", Json.jobj
      [("get", Json.jobj
        [("tags", Json.jarr [Json.jstr "pets"])])])])]

/-- A DELETE operation carrying a required path parameter and no request
body. -/
def deleteParamDoc : Json :=
  Json.jobj [("paths", Json.jobj
    [("/pets/{id}", Json.jobj
      [("delete", Json.jobj
        [("operationId", Json.jstr "removePet"),
         ("tags", Json.jarr [Json.jstr "pets"]),
         ("parameters", Json.jarr
           [Json.jobj
             [("name", Json.jstr "id"),
              ("in", Json.jstr "path"),
              ("required", Json.jbool true),
              ("schema", Json.jobj [("type", Json.jstr "integer")])]])])])])]

/-- A single valid GET operation with no tags field. -/
def noTagDoc : Json :=
  Json.jobj [("paths", Json.jobj
    [("/items", Json.jobj
      [("get", Json.jobj [("operationId", Json.jstr "listItems")])])])]

/-- The same operation, tagged. -/
def taggedDoc : Json :=
  Json.jobj [("paths", Json.jobj
    [("/items", Json.jobj
      [("get", Json.jobj
        [("operationId", Json.jstr "listItems"),
         ("tags", Json.jarr [Json.jstr "shop"])])])])]

/-- A one-operation document parametric in the operation's tags list. -/
def singleOpDoc (tags : List Json) : Json :=
  Json.jobj [("paths", Json.jobj
    [("/items", Json.jobj
      [("get", Json.jobj
        [("operationId", Json.jstr "listItems"),
         ("tags", Json.jarr tags)])])])]

/-- Two distinct tools sharing the name "dup". -/
def dupToolA : Json :=
  Json.jobj [("name", Json.jstr "dup"), ("description", Json.jstr "first")]

def dupToolB : Json :=
  Json.jobj [("name", Json.jstr "dup"), ("description", Json.jstr "second")]

/-! ### Statement helpers (readers over emitted schemas) -/

/-- The `required` array of an emitted schema (empty when the key is
absent or not an array). -/
def requiredOf (j : Json) : List Json :=
  match lookupJ j "required" with
  | some (Json.jarr xs) => xs
  | _ => []

/-- The top-level property entries createInputSchema iterates for a given
input. -/
def propEntriesOf : Option Json → List (String × Json)
  | none => []
  | some schema =>
      if !schema.truthy || !schema.typeofObject then []
      else
        match lookupJ schema "properties" with
        | some pv => if pv.truthy && pv.typeofObject then entriesOf pv else []
        | none => []

/-- The source `required` array createInputSchema consults for a given
input. -/
def origRequiredOf : Option Json → List Json
  | none => []
  | some schema =>
      if !schema.truthy || !schema.typeofObject then []
      else
        match lookupJ schema "required" with
        | some (Json.jarr xs) => xs
        | _ => []

/-! ### Claim theorems -/

/-- Claim C1 (code divergence witness).  For the tool compiled from the
section-8 pets document, invoking the executor with args id=42 and
baseURL https://api.example.com yields method GET and no request body,
but the final URL is "https://api.example.com/pets/{id}": the placeholder
is NOT substituted, because the compiled tool carries no
x-props.parameters array, so the executor treats the whole args object as
a body payload (dropped for GET) and never reaches its path-substitution
branch.  The claim asserts the URL ".../pets/42". -/
theorem c1_pets_request_unsubstituted :
    (convertOpenApiToMcpTools petsDoc "pets").map
      (fun t => executeToolRequest t.toJson (Json.jobj [("id", Json.jnum 42)])
        "https://api.example.com" none) =
    [Except.ok ⟨"GET", "https://api.example.com/pets/{id}", "/pets/{id}",
        [("Content-Type", Json.jstr "application/json")], none⟩] := by
  decide

/-- Claim C8 (code divergence witness).  In
`_.snakeCase(`${method}_${operation.operationId}` || `${method}_${path}`)`
the left template literal is never empty, so the method+path fallback is
dead: an operation without an operationId interpolates the text
"undefined", and after snake-casing and verb-prefix stripping the tool is
named exactly "undefined" instead of a method+path-derived name. -/
theorem c8_missing_operationid_yields_undefined :
    (convertOpenApiToMcpTools noOperationIdDoc "pets").map McpTool.name = ["undefined"] := by
  decide

/-- Claim C5 counterexample.  A DELETE operation with a required path
parameter and no request body is compiled with the empty default input
schema: the parameters are not consulted (only `get` uses them) and there
is no fallback to the parameter-derived schema.  The claim would require
an input schema with the `id` property, required. -/
theorem c5_schema_counterexample :
    (convertOpenApiToMcpTools deleteParamDoc "pets").map McpTool.inputSchema =
    [Json.jobj
      [("type", Json.jstr "object"),
       ("properties", Json.jobj []),
       ("additionalProperties", Json.jbool false)]] := by
  decide

/-- Claim C3 counterexample.  Under the "all" sentinel the effective
filter string is "" (the sentinel is replaced by an empty array, which
`String.prototype.includes` coerces to the empty string), and an accepted
operation WITHOUT tags is still excluded — the converter skips every
untagged operation unconditionally — while the same operation with a tag
is included.  The claim asserts that under the sentinel every accepted
operation is included regardless of its tags. -/
theorem c3_filter_counterexample :
    effectiveFilter (FilterVal.fstr "all") = "" ∧
    convertOpenApiToMcpTools noTagDoc (effectiveFilter (FilterVal.fstr "all")) = [] ∧
    (convertOpenApiToMcpTools taggedDoc (effectiveFilter (FilterVal.fstr "all"))).map
      McpTool.name = ["list_items"] := by
  decide

/-- Claim C7 counterexample.  cleanToolName does not case-fold: on input
"ABC" it returns "ABC", which contains uppercase letters, contradicting
the claimed final lowercasing step. -/
theorem c7_cleanname_counterexample :
    cleanToolName "ABC" = "ABC" ∧ ("ABC".data.any Char.isUpper) = true := by
  decide

/-- Claim C2 counterexample.  With two distinct tools of the same name,
the tools/call lookup (`tools.find`) resolves to the FIRST compiled tool,
not the last. -/
theorem c2_lookup_counterexample :
    findTool [dupToolA, dupToolB] (some (Json.jstr "dup")) = some dupToolA ∧
    dupToolA ≠ dupToolB := by
  decide

/-- Claim C10 counterexample.  A batch item whose dispatch rejects is
answered with the hardcoded id "error", not with the id of the request it
answers (here a request with id 7). -/
theorem c10_id_counterexample :
    (webhookBatchRespond [Except.error "boom"]).map RpcResponse.id =
      [some (Json.jstr "error")] ∧
    some (Json.jstr "error") ≠ some (Json.jnum 7) := by
  decide

/-- Claim C10 (amended).  Every response handleMCPRequest produces —
initialize, tools/list, tools/call (tool found or not, executor resolved
or thrown), ping, and unknown methods — carries the id of the request it
answers.  The one exception (outside handleMCPRequest) is the captured
batch-item rejection, which carries the constant id "error"; see the
counterexample. -/
theorem c10_id_echo (req : RpcRequest) (tools : List Json)
    (exec : Json → Json → ExecOutcome) :
    (handleMCPRequest req tools exec).id = req.id := by
  unfold handleMCPRequest
  split <;> try rfl
  split <;> try rfl
  dsimp only
  split <;> rfl

/-- Claim C2 (amended).  The tools/call lookup is a linear `find`, so the
FIRST compiled tool with the requested name wins; tools appearing before
it without that name do not interfere and colliding tools after it are
never reached. -/
theorem c2_lookup_first_wins (pre post : List Json) (t : Json) (toolName : Option Json)
    (hpre : ∀ u ∈ pre, lookupJ u "name" ≠ toolName) (ht : lookupJ t "name" = toolName) :
    findTool (pre ++ t :: post) toolName = some t := by
  induction pre with
  | nil => simp [findTool, List.find?_cons, ht]
  | cons u rest ih =>
      have hu : lookupJ u "name" ≠ toolName := hpre u (List.mem_cons_self u rest)
      have hrest : ∀ v ∈ rest, lookupJ v "name" ≠ toolName :=
        fun v hv => hpre v (List.mem_cons_of_mem u hv)
      simpa [findTool, List.find?_cons, hu] using ih hrest

theorem c2_lookup_first_wins_witness :
    findTool ([Json.jobj [("name", Json.jstr "other")]] ++ dupToolA :: [dupToolB])
      (some (Json.jstr "dup")) = some dupToolA :=
  c2_lookup_first_wins [Json.jobj [("name", Json.jstr "other")]] [dupToolB] dupToolA
    (some (Json.jstr "dup")) (by decide) (by decide)

/-- Claim C9.  Batch handling returns one response per settled dispatch,
in order: the output has the inbound length, the i-th response depends
only on the i-th outcome (so no item's failure affects a sibling), a
rejected dispatch becomes the synthetic -32000 "Unhandled handler error"
response, and a tools/call naming no existing tool is answered (for that
item alone) with error code -32601. -/
theorem c9_batch_isolation (outcomes : List (Except String RpcResponse)) (i : Nat)
    (req : RpcRequest) (tools : List Json) (exec : Json → Json → ExecOutcome) :
    (webhookBatchRespond outcomes).length = outcomes.length ∧
    (webhookBatchRespond outcomes)[i]? = (outcomes[i]?).map settleOne ∧
    (∀ reason, outcomes[i]? = some (Except.error reason) →
       (webhookBatchRespond outcomes)[i]? =
         some ⟨some (Json.jstr "error"), none,
           some ⟨-32000, "Unhandled handler error", some (Json.jstr reason)⟩⟩) ∧
    (req.method = some (Json.jstr "tools/call") →
     (∀ t ∈ tools, lookupJ t "name" ≠ req.params.bind (fun p => lookupJ p "name")) →
     handleMCPRequest req tools exec =
       errResp req.id (-32601)
         ("Tool \x27" ++ jsTemplate (req.params.bind (fun p => lookupJ p "name")) ++
          "\x27 not found") none) := by
  refine ⟨List.length_map _ _, List.getElem?_map _ _ _, ?_, ?_⟩
  · intro reason hr
    show (outcomes.map settleOne)[i]? = _
    rw [List.getElem?_map, hr]
    rfl
  · intro hm hnone
    have hfind : findTool tools (req.params.bind (fun p => lookupJ p "name")) = none := by
      apply List.find?_eq_none.mpr
      intro t ht
      simpa using hnone t ht
    unfold handleMCPRequest
    rw [hm, hfind]
    rfl

theorem c9_batch_isolation_witness :
    (webhookBatchRespond
      [Except.ok ⟨some (Json.jnum 1), some (Json.jobj []), none⟩,
       Except.error "boom"])[1]? =
      some ⟨some (Json.jstr "error"), none,
        some ⟨-32000, "Unhandled handler error", some (Json.jstr "boom")⟩⟩ ∧
    handleMCPRequest
      ⟨some (Json.jnum 2), some (Json.jstr "tools/call"),
       some (Json.jobj [("name", Json.jstr "nope")])⟩
      [dupToolA] (fun _ _ => ExecOutcome.resolved (Json.jstr "ok")) =
      errResp (some (Json.jnum 2)) (-32601) "Tool \x27nope\x27 not found" none := by
  constructor
  · exact (c9_batch_isolation
      [Except.ok ⟨some (Json.jnum 1), some (Json.jobj []), none⟩, Except.error "boom"] 1
      ⟨none, none, none⟩ [] (fun _ _ => ExecOutcome.resolved Json.jnull)).2.2.1 "boom" rfl
  · exact (c9_batch_isolation [] 0
      ⟨some (Json.jnum 2), some (Json.jstr "tools/call"),
       some (Json.jobj [("name", Json.jstr "nope")])⟩
      [dupToolA] (fun _ _ => ExecOutcome.resolved (Json.jstr "ok"))).2.2.2 rfl (by decide)

/-- Claim C4.  The per-key cache policy of loadTools: a fresh entry
(forceRefresh false, age strictly below the TTL) is returned verbatim
without invoking the refresh; otherwise the refresh runs — on success the
entry is overwritten with the new timestamp and the fresh list returned,
on failure a previously cached entry (of any age) is returned unchanged,
and the error propagates only when no entry existed. -/
theorem c4_cache_policy {ε α : Type} (cached : Option (CacheEntry α))
    (nowCheck nowStore ttl : Nat) (force : Bool) (refresh : Except ε (List α)) :
    (∀ e, cached = some e → force = false →
      (nowCheck : Int) - (e.timestamp : Int) < (ttl : Int) →
      loadToolsStep cached nowCheck nowStore ttl force refresh =
        ⟨Except.ok e.tools, some e, false⟩) ∧
    ((∀ e, cached = some e →
        force = true ∨ ¬((nowCheck : Int) - (e.timestamp : Int) < (ttl : Int))) →
      (loadToolsStep cached nowCheck nowStore ttl force refresh).refreshInvoked = true ∧
      (∀ ts, refresh = Except.ok ts →
        loadToolsStep cached nowCheck nowStore ttl force refresh =
          ⟨Except.ok ts, some ⟨nowStore, ts⟩, true⟩) ∧
      (∀ err, refresh = Except.error err →
        (∀ e, cached = some e →
          loadToolsStep cached nowCheck nowStore ttl force refresh =
            ⟨Except.ok e.tools, some e, true⟩) ∧
        (cached = none →
          loadToolsStep cached nowCheck nowStore ttl force refresh =
            ⟨Except.error err, none, true⟩))) := by
  constructor
  · intro e he hf hfresh
    subst he
    subst hf
    simp [loadToolsStep, hfresh]
  · intro hstale
    rcases cached with _ | e
    · refine ⟨by cases refresh <;> rfl, ?_, ?_⟩
      · intro ts h
        subst h
        rfl
      · intro err h
        subst h
        exact ⟨fun e2 he2 => Option.noConfusion he2, fun _ => rfl⟩
    · have hcond : (!force &&
          decide ((nowCheck : Int) - (e.timestamp : Int) < (ttl : Int))) = false := by
        rcases hstale e rfl with hf | hs
        · simp [hf]
        · simp [hs]
      refine ⟨?_, ?_, ?_⟩
      · cases refresh <;> simp [loadToolsStep, hcond]
      · intro ts h
        subst h
        simp [loadToolsStep, hcond]
      · intro err h
        subst h
        refine ⟨?_, ?_⟩
        · intro e2 he2
          cases he2
          simp [loadToolsStep, hcond]
        · intro h2
          exact Option.noConfusion h2

theorem c4_cache_policy_witness :
    loadToolsStep (some ⟨0, [7]⟩) 1000000000 1000000000 TOOLS_CACHE_TTL_MS false
      (Except.error "boom") =
    ⟨Except.ok [7], some (⟨0, [7]⟩ : CacheEntry Nat), true⟩ := by
  have h := (c4_cache_policy (ε := String) (α := Nat) (some ⟨0, [7]⟩) 1000000000 1000000000
    TOOLS_CACHE_TTL_MS false (Except.error "boom")).2
  have h2 := h (fun e he => by
    cases he
    right
    decide)
  exact (h2.2.2 "boom" rfl).1 ⟨0, [7]⟩ rfl

set_option maxHeartbeats 6400000 in
/-- Claim C5 (amended).  A compiled tool's input schema is always
`createInputSchema` of `selectSchema`, and the schema source selection
is: for every non-`get` method (including delete and head) the
request-body schema — `none` when no request body is declared, with no
fallback to the parameters — and the parameter-derived schema only for
`get`.  `createInputSchema none` is the empty default schema. -/
theorem c5_schema_amended (m path : String) (operation : Json) (tags : List Json)
    (params : List Json) (bodyFields : List (String × Json))
    (hm : m ∈ ["post", "put", "delete", "patch", "head", "options"]) :
    (∀ t, createToolFromOperation path m operation tags = some t →
       t.inputSchema = createInputSchema (selectSchema m operation)) ∧
    (selectSchema m (Json.jobj [("operationId", Json.jstr "doThing"),
        ("parameters", Json.jarr params)]) = none) ∧
    (selectSchema m (Json.jobj [("operationId", Json.jstr "doThing"),
        ("requestBody", Json.jobj [("content", Json.jobj
          [("application/json", Json.jobj [("schema", Json.jobj bodyFields)])])])]) =
      some (Json.jobj bodyFields)) ∧
    (selectSchema "get" (Json.jobj [("operationId", Json.jstr "doThing"),
        ("parameters", Json.jarr params)]) =
      extractParametersSchema (Json.jarr params)) ∧
    createInputSchema none = Json.jobj
      [("type", Json.jstr "object"),
       ("properties", Json.jobj []),
       ("additionalProperties", Json.jbool false)] := by
  refine ⟨?_, ?_, ?_, rfl, rfl⟩
  · intro t h
    unfold createToolFromOperation at h
    generalize hn : toolNameOf m operation path = n at h
    split at h
    · exact Option.noConfusion h
    · cases h
      rfl
  · fin_cases hm <;> rfl
  · fin_cases hm <;> rfl

theorem c5_schema_amended_witness :
    selectSchema "delete" (Json.jobj [("operationId", Json.jstr "doThing"),
        ("parameters", Json.jarr [Json.jobj [("name", Json.jstr "id"),
          ("in", Json.jstr "path"), ("required", Json.jbool true)]])]) = none :=
  (c5_schema_amended "delete" "/a" Json.jnull []
    [Json.jobj [("name", Json.jstr "id"), ("in", Json.jstr "path"),
      ("required", Json.jbool true)]] [] (by decide)).2.1

/-- Claim C3 (amended).  For a document with one valid operation, the
converter emits its tool iff at least one of the operation's tags is a
string whose LOWERCASED form contains the filter string verbatim as a
substring (`tagMatches`): an operation with no tags (or only non-string
tags) is always excluded — also under the empty-filter string the
"all"/empty sentinel normalizes to — and the filter itself is not
case-folded. -/
theorem c3_filter_amended (tags : List Json) (f : String) :
    (convertOpenApiToMcpTools (singleOpDoc tags) f ≠ []) ↔
      tags.any (tagMatches f) = true := by
  have hred : convertOpenApiToMcpTools (singleOpDoc tags) f =
      ((if tags.isEmpty || !(tags.any (tagMatches f)) then []
        else toolListOf (createToolFromOperation "/items" "get"
            (Json.jobj [("operationId", Json.jstr "listItems"),
                        ("tags", Json.jarr tags)]) tags)) ++ []) ++ [] := rfl
  rw [hred]
  cases hany : tags.any (tagMatches f) with
  | false => simp [hany]
  | true =>
      have hempty : tags.isEmpty = false := by
        cases tags with
        | nil => simp at hany
        | cons a l => rfl
      have hname : toolNameOf "get"
          (Json.jobj [("operationId", Json.jstr "listItems"),
                      ("tags", Json.jarr tags)]) "/items" = "list_items" := by
        unfold toolNameOf
        rw [show lookupJ (Json.jobj [("operationId", Json.jstr "listItems"),
              ("tags", Json.jarr tags)]) "operationId" = some (Json.jstr "listItems")
            from rfl]
        decide
      simp only [hany, hempty, Bool.not_true, Bool.or_false, if_false]
      unfold createToolFromOperation
      rw [hname]
      simp [toolListOf]

/-! ### Helper lemmas for the input-schema claim -/

/-- cleanProperty always returns a (truthy) object: the JS null/catch
path is unreachable on pure JSON data. -/
theorem truthy_cleanPropertyFuel (f : Nat) (p : Json) :
    (cleanPropertyFuel f p).truthy = true := by
  cases f with
  | zero => rfl
  | succ n =>
      simp only [cleanPropertyFuel]
      split <;> rfl

/-- Membership in the `required` accumulator of the createInputSchema
property fold. -/
theorem ciFold_snd_mem (oreq : List Json) (entries : List (String × Json))
    (acc : List (String × Json) × List Json) (k : String) :
    Json.jstr k ∈ (entries.foldl (ciStep oreq) acc).2 ↔
      Json.jstr k ∈ acc.2 ∨
        ∃ p, (k, p) ∈ entries ∧ k ≠ "" ∧ Json.jstr k ∈ oreq ∧ optFlag p = false := by
  induction entries generalizing acc with
  | nil => simp
  | cons e rest ih =>
      obtain ⟨k0, p0⟩ := e
      rw [List.foldl_cons, ih]
      have hstep : (ciStep oreq acc (k0, p0)).2 =
          if k0 = "" then acc.2
          else if decide (Json.jstr k0 ∈ oreq) && !optFlag p0
               then acc.2 ++ [Json.jstr k0] else acc.2 := by
        simp only [ciStep, cleanProperty, truthy_cleanPropertyFuel]
        split
        · rfl
        · simp [truthy_cleanPropertyFuel]
      rw [hstep]
      by_cases hk0 : k0 = ""
      · subst hk0
        simp only [if_pos rfl]
        constructor
        · rintro (h | ⟨p, hp, hne, hin, hopt⟩)
          · exact Or.inl h
          · exact Or.inr ⟨p, List.mem_cons_of_mem _ hp, hne, hin, hopt⟩
        · rintro (h | ⟨p, hp, hne, hin, hopt⟩)
          · exact Or.inl h
          · rcases List.mem_cons.mp hp with heq | hmem
            · cases heq
              exact absurd rfl hne
            · exact Or.inr ⟨p, hmem, hne, hin, hopt⟩
      · rw [if_neg hk0]
        by_cases hcond : (decide (Json.jstr k0 ∈ oreq) && !optFlag p0) = true
        · rw [if_pos hcond]
          rw [Bool.and_eq_true, decide_eq_true_eq, Bool.not_eq_true'] at hcond
          constructor
          · rintro (h | ⟨p, hp, hne, hin, hopt⟩)
            · rcases List.mem_append.mp h with h2 | h2
              · exact Or.inl h2
              · have hk : k = k0 := by
                  have := List.mem_singleton.mp h2
                  exact (Json.jstr.injEq _ _).mp this
                subst hk
                exact Or.inr ⟨p0, List.mem_cons_self _ _, hk0, hcond.1, hcond.2⟩
            · exact Or.inr ⟨p, List.mem_cons_of_mem _ hp, hne, hin, hopt⟩
          · rintro (h | ⟨p, hp, hne, hin, hopt⟩)
            · exact Or.inl (List.mem_append.mpr (Or.inl h))
            · rcases List.mem_cons.mp hp with heq | hmem
              · cases heq
                exact Or.inl (List.mem_append.mpr (Or.inr (List.mem_singleton.mpr rfl)))
              · exact Or.inr ⟨p, hmem, hne, hin, hopt⟩
        · rw [if_neg hcond]
          rw [Bool.and_eq_true, decide_eq_true_eq, Bool.not_eq_true'] at hcond
          constructor
          · rintro (h | ⟨p, hp, hne, hin, hopt⟩)
            · exact Or.inl h
            · exact Or.inr ⟨p, List.mem_cons_of_mem _ hp, hne, hin, hopt⟩
          · rintro (h | ⟨p, hp, hne, hin, hopt⟩)
            · exact Or.inl h
            · rcases List.mem_cons.mp hp with heq | hmem
              · exfalso
                cases heq
                exact hcond ⟨hin, hopt⟩
              · exact Or.inr ⟨p, hmem, hne, hin, hopt⟩

/-- Claim C6.  Every schema createInputSchema emits carries
`additionalProperties: false`, and its `required` list contains exactly
the nonempty property names of the source schema that appear in the
source `required` array and are not flagged optional by the
property-level `optional` override. -/
theorem c6_input_schema (schemaOpt : Option Json) (k : String) :
    lookupJ (createInputSchema schemaOpt) "additionalProperties" =
      some (Json.jbool false) ∧
    (Json.jstr k ∈ requiredOf (createInputSchema schemaOpt) ↔
      k ≠ "" ∧ ∃ prop, (k, prop) ∈ propEntriesOf schemaOpt ∧
        Json.jstr k ∈ origRequiredOf schemaOpt ∧ optFlag prop = false) := by
  rcases schemaOpt with _ | schema
  · exact ⟨rfl, by simp [requiredOf, propEntriesOf, createInputSchema, lookupJ, lookupField]⟩
  · cases hS : (!schema.truthy || !schema.typeofObject) with
    | true =>
        constructor
        · simp only [createInputSchema, hS, if_true]
          rfl
        · simp [createInputSchema, propEntriesOf, origRequiredOf, requiredOf, hS,
            lookupJ, lookupField]
    | false =>
        constructor
        · simp only [createInputSchema, hS, Bool.false_eq_true, if_false]
          rfl
        · have hreq : requiredOf (createInputSchema (some schema)) =
              ((match lookupJ schema "properties" with
                | some pv => if pv.truthy && pv.typeofObject then entriesOf pv else []
                | none => []).foldl
                (ciStep (match lookupJ schema "required" with
                  | some (Json.jarr xs) => xs
                  | _ => [])) ([], [])).2 := by
            simp only [createInputSchema, hS, Bool.false_eq_true, if_false]
            rfl
          have hpe : propEntriesOf (some schema) =
              (match lookupJ schema "properties" with
               | some pv => if pv.truthy && pv.typeofObject then entriesOf pv else []
               | none => []) := by
            simp only [propEntriesOf, hS, Bool.false_eq_true, if_false]
          have hor : origRequiredOf (some schema) =
              (match lookupJ schema "required" with
               | some (Json.jarr xs) => xs
               | _ => []) := by
            simp only [origRequiredOf, hS, Bool.false_eq_true, if_false]
          rw [hreq, hpe, hor, ciFold_snd_mem]
          simp only [List.not_mem_nil, false_or]
          constructor
          · rintro ⟨p, hp, hne, hin, hopt⟩
            exact ⟨hne, p, hp, hin, hopt⟩
          · rintro ⟨hne, p, hp, hin, hopt⟩
            exact ⟨p, hp, hne, hin, hopt⟩

/-! ### Helper lemmas for the name-cleaning claim: each pipeline stage
only keeps characters of its input. -/

theorem mem_collapseU {c : Char} (l : List Char) (h : c ∈ collapseU l) : c ∈ l := by
  induction l with
  | nil => simp [collapseU] at h
  | cons a rest ih =>
      cases rest with
      | nil =>
          simp [collapseU] at h
          simp [h]
      | cons b rest2 =>
          simp only [collapseU] at h
          split at h
          · exact List.mem_cons_of_mem a (ih h)
          · rcases List.mem_cons.mp h with rfl | h2
            · exact List.mem_cons_self _ _
            · exact List.mem_cons_of_mem a (ih h2)

theorem mem_dropOneLead {c : Char} (l : List Char) (h : c ∈ dropOneLead l) : c ∈ l := by
  cases l with
  | nil => simp [dropOneLead] at h
  | cons a rest =>
      simp only [dropOneLead] at h
      split at h
      · exact List.mem_cons_of_mem a h
      · exact h

theorem mem_dropOneTrail {c : Char} (l : List Char) (h : c ∈ dropOneTrail l) : c ∈ l := by
  unfold dropOneTrail at h
  rw [List.mem_reverse] at h
  exact List.mem_reverse.mp (mem_dropOneLead _ h)

theorem mem_restAfterVerb {l r : List Char} (h : restAfterVerb l = some r)
    {c : Char} (hc : c ∈ r) : c ∈ l := by
  unfold restAfterVerb at h
  repeat' split at h
  all_goals first
    | exact Option.noConfusion h
    | (injection h with h2; subst h2; exact List.mem_of_mem_drop hc)

theorem mem_dropVerbOnce {c : Char} (l : List Char) (h : c ∈ dropVerbOnce l) : c ∈ l := by
  unfold dropVerbOnce at h
  split at h
  · exact mem_restAfterVerb (by assumption) h
  · exact h

theorem mem_dropVerbsF {c : Char} (fuel : Nat) (l : List Char)
    (h : c ∈ dropVerbsF fuel l) : c ∈ l := by
  induction fuel generalizing l with
  | zero =>
      simp only [dropVerbsF] at h
      exact h
  | succ n ih =>
      simp only [dropVerbsF] at h
      split at h
      · exact mem_restAfterVerb (by assumption) (ih _ h)
      · exact h

/-- After the replacement step, every surviving character is
alphanumeric or an underscore. -/
theorem cleanPipe_safe (l : List Char) :
    ∀ c ∈ cleanPipe l, (c.isAlphanum || c == '_') = true := by
  intro c hc
  unfold cleanPipe at hc
  have h6 := mem_dropOneLead _ (mem_dropOneTrail _ hc)
  have h5 := mem_dropVerbsF _ _ h6
  have h4 := mem_dropOneLead _ (mem_dropOneTrail _ (mem_dropVerbOnce _ h5))
  have h3 := mem_collapseU _ h4
  rcases List.mem_map.mp h3 with ⟨a, _, rfl⟩
  unfold sanitizeChar
  split
  · rename_i hcond
    rcases Bool.or_eq_true_iff.mp hcond with h1 | h1
    · simp [h1]
    · have ha : a = '_' := of_decide_eq_true h1
      subst ha
      decide
  · decide

/-- Claim C7 (amended).  cleanToolName strips braces, replaces every
character outside [A-Za-z0-9_] with an underscore, collapses repeated
underscores, trims one leading/trailing underscore, then (instead of the
claimed lowercasing) case-insensitively strips leading HTTP-verb/api
prefixes and trims again, falling back to "unnamed_tool" when empty:
every output character is in [A-Za-z0-9_], the output is never empty,
and — as the counterexample shows — the case of letters is preserved, not
folded to lowercase. -/
theorem c7_cleanname_amended (s : String) :
    ((cleanToolName s).data.all (fun c => c.isAlphanum || c == '_')) = true ∧
    cleanToolName s ≠ "" := by
  unfold cleanToolName
  by_cases h : (cleanPipe s.data).isEmpty
  · rw [if_pos h]
    exact ⟨by decide, by decide⟩
  · rw [if_neg h]
    refine ⟨?_, ?_⟩
    · rw [List.all_eq_true]
      intro c hc
      exact cleanPipe_safe s.data c hc
    · intro heq
      apply h
      have hdata : (cleanPipe s.data) = [] := congrArg String.data heq
      simp [hdata]

theorem c3_filter_amended_witness :
    convertOpenApiToMcpTools (singleOpDoc [Json.jstr "Shop"]) "shop" ≠ [] :=
  (c3_filter_amended [Json.jstr "Shop"] "shop").mpr (by decide)

theorem c5_inputschema_note :
    createInputSchema (some (Json.jobj [("type", Json.jstr "object")])) =
      Json.jobj
        [("type", Json.jstr "object"),
         ("properties", Json.jobj []),
         ("required", Json.jarr []),
         ("additionalProperties", Json.jbool false)] := by
  decide

theorem c6_input_schema_witness :
    lookupJ (createInputSchema (some (Json.jobj
      [("properties", Json.jobj
        [("a", Json.jobj [("type", Json.jstr "string"), ("optional", Json.jbool true)]),
         ("b", Json.jobj [("type", Json.jstr "string")])]),
       ("required", Json.jarr [Json.jstr "a", Json.jstr "b"])])))
      "additionalProperties" = some (Json.jbool false) :=
  (c6_input_schema (some (Json.jobj
      [("properties", Json.jobj
        [("a", Json.jobj [("type", Json.jstr "string"), ("optional", Json.jbool true)]),
         ("b", Json.jobj [("type", Json.jstr "string")])]),
       ("required", Json.jarr [Json.jstr "a", Json.jstr "b"])])) "b").1

theorem c7_cleanname_amended_witness :
    cleanToolName "a-b" ≠ "" :=
  (c7_cleanname_amended "a-b").2

theorem c10_id_echo_witness :
    (handleMCPRequest ⟨some (Json.jnum 5), some (Json.jstr "ping"), none⟩ []
      (fun _ _ => ExecOutcome.resolved Json.jnull)).id = some (Json.jnum 5) :=
  c10_id_echo ⟨some (Json.jnum 5), some (Json.jstr "ping"), none⟩ []
    (fun _ _ => ExecOutcome.resolved Json.jnull)
